import Mathlib

/-!
Shallow embedding of the broadcast core of `src/server.js` (class
`RadioStation` and its helpers).  Byte buffers are `List Nat`, the file
system is a function from path to an outcome (absent, present but
unreadable, or readable contents), and JavaScript exceptions that escape a
function are returned as a `some` error alongside the (possibly mutated)
station state.  Client sinks record the sequence of writes performed on
them; whether the k-th write attempt on a sink succeeds is given by the
sink's `okW` oracle, and client ids stand for JS object identity inside
the station's `Set` of clients.
-/

namespace RadioMax

/-- Outcome of the file system for one path: the file may be absent
(`fs.existsSync` is false), present but unreadable (`fs.readFileSync`
raises), or present with readable contents. -/
inductive FsEntry where
  | missing : FsEntry
  | unreadable : FsEntry
  | file : List Nat → FsEntry

/-- The file-system capability consumed by the station. -/
abbrev Fs : Type := String → FsEntry

/-- A JavaScript exception escaping one of the embedded functions. -/
inductive JsErr where
  | typeError : JsErr
  | ioError : JsErr
deriving DecidableEq

/-- One write performed on a client response sink: either the ICY header
block sent by `sendIcyHeaders` or a chunk of audio bytes. -/
inductive WriteItem where
  | header : WriteItem
  | chunk : List Nat → WriteItem
deriving DecidableEq

/-- A connected client: the response sink state (`destroyed`, the writes
performed so far) plus the id used in the source to identify it.  `okW k`
tells whether the k-th write attempt on this sink succeeds; a `false`
models `res.write` throwing. -/
structure Client where
  id : Nat
  destroyed : Bool
  okW : Nat → Bool
  writeCount : Nat
  written : List WriteItem

/-- The mutable state of `class RadioStation` (`src/server.js`, lines
12-24): playlist, cursor, client set, playing flag, loaded buffer and its
size, broadcast timer flag and chunk size. -/
structure RadioStation where
  name : String
  files : List String
  currentFileIndex : Nat
  currentPosition : Nat
  clients : List Client
  isPlaying : Bool
  currentBuffer : Option (List Nat)
  fileSize : Nat
  broadcastInterval : Bool
  chunkSize : Nat

/-- The constructor of `RadioStation`: index 0, position 0, empty client
set, not playing, no buffer, chunk size 1024. -/
def mkStation (name : String) (files : List String) : RadioStation :=
  { name := name, files := files, currentFileIndex := 0, currentPosition := 0,
    clients := [], isPlaying := false, currentBuffer := none, fileSize := 0,
    broadcastInterval := false, chunkSize := 1024 }

/-- `Buffer.slice(start, end)`: the bytes in `[start, end)` of the buffer,
clamped to the buffer length. -/
def bufSlice (b : List Nat) (s e : Nat) : List Nat := (b.take e).drop s

/-- `loadCurrentFile` (lines 38-50): look up the current playlist entry; a
missing file only logs and returns normally leaving the state unchanged; a
readable file replaces the buffer, sets `fileSize` and resets the
position.  An out-of-range index makes `files[i]` `undefined`, so
`path.join` raises a `TypeError`; an unreadable file makes `readFileSync`
raise — neither exception is caught in the source, so both are returned in
the error component, with the state unchanged. -/
def loadCurrentFile (fs : Fs) (st : RadioStation) : RadioStation × Option JsErr :=
  match st.files[st.currentFileIndex]? with
  | none => (st, some JsErr.typeError)
  | some f =>
    match fs f with
    | FsEntry.missing => (st, none)
    | FsEntry.unreadable => (st, some JsErr.ioError)
    | FsEntry.file b =>
      ({ st with currentBuffer := some b, fileSize := b.length, currentPosition := 0 }, none)

/-- `nextTrack` (lines 87-90): advance the playlist index cyclically, then
load the newly current file. -/
def nextTrack (fs : Fs) (st : RadioStation) : RadioStation × Option JsErr :=
  loadCurrentFile fs { st with currentFileIndex := (st.currentFileIndex + 1) % st.files.length }

/-- One `res.write(...)` attempt on a client sink: the `okW` oracle at the
current attempt number decides success; a successful write is recorded,
and a throwing write records nothing.  Either way the attempt counter
advances. -/
def writeSink (c : Client) (w : WriteItem) : Client × Bool :=
  if c.okW c.writeCount
  then ({ c with writeCount := c.writeCount + 1, written := c.written ++ [w] }, true)
  else ({ c with writeCount := c.writeCount + 1 }, false)

/-- The body of the per-client fan-out in `startBroadcasting` (lines
65-76): a destroyed sink is deleted without a write; otherwise the chunk
is written, and a throwing write deletes the client.  Returns the client's
state after the tick, or `none` when it was deleted. -/
def fanoutOne (ch : List Nat) (c : Client) : Option Client :=
  if c.destroyed then none
  else
    match writeSink c (WriteItem.chunk ch) with
    | (c1, true) => some c1
    | (_, false) => none

/-- The `clients.forEach` fan-out of one tick: every client is visited in
insertion order and either updated or deleted. -/
def fanout (ch : List Nat) (cs : List Client) : List Client :=
  cs.filterMap (fanoutOne ch)

/-- The byte slice one tick broadcasts from buffer `b`:
`[currentPosition, min(currentPosition + chunkSize, fileSize))`. -/
def broadcastChunk (st : RadioStation) (b : List Nat) : List Nat :=
  bufSlice b st.currentPosition (min (st.currentPosition + st.chunkSize) st.fileSize)

/-- One execution of the `setInterval` callback of `startBroadcasting`
(lines 52-85): skip when not playing or no buffer is loaded; otherwise
compute the slice, fan it out, advance the position to `endPosition`, and
rotate when the end of the file is reached.  The error component carries
an exception escaping the (un-awaited) `nextTrack` call, which in the
source becomes an unhandled promise rejection. -/
def tick (fs : Fs) (st : RadioStation) : RadioStation × Option JsErr :=
  if st.isPlaying = false then (st, none)
  else
    match st.currentBuffer with
    | none => (st, none)
    | some b =>
      let endPosition := min (st.currentPosition + st.chunkSize) st.fileSize
      let ch := bufSlice b st.currentPosition endPosition
      let st1 := { st with clients := fanout ch st.clients, currentPosition := endPosition }
      if st1.fileSize ≤ st1.currentPosition then nextTrack fs st1 else (st1, none)

/-- Iterate `tick` `n` times, stopping at the first tick whose escaped
exception would kill the process. -/
def ticksN (fs : Fs) : Nat → RadioStation → RadioStation × Option JsErr
  | 0, st => (st, none)
  | Nat.succ n, st =>
    match tick fs st with
    | (st1, none) => ticksN fs n st1
    | (st1, some e) => (st1, some e)

/-- `start` (lines 26-36): an empty playlist returns at once; otherwise
`isPlaying` is set to `true` before the first load is attempted, and the
broadcast interval is installed after the load returns.  An exception
escaping the load aborts `start` before `startBroadcasting`. -/
def start (fs : Fs) (st : RadioStation) : RadioStation × Option JsErr :=
  if st.files.length = 0 then (st, none)
  else
    match loadCurrentFile fs { st with isPlaying := true } with
    | (st2, none) => ({ st2 with broadcastInterval := true }, none)
    | (st2, some e) => (st2, some e)

/-- `this.clients.add(client)`, with ids standing for JS object identity:
adding an already-present client is a no-op. -/
def addSet (cs : List Client) (c : Client) : List Client :=
  if cs.any (fun d => d.id == c.id) then cs else cs ++ [c]

/-- `addClient` (lines 92-110): register the client, send the ICY headers
(this write is not guarded by `try`, so a failure escapes with the client
still registered), then, when in the middle of a track, send the
remaining bytes from the current position; a failure of that catch-up
write is caught and deletes the client.  The cursor fields are never
touched.  The source mutates the client object after inserting it into
the `Set`; since ids model object identity, the embedding inserts the
final client state. -/
def addClient (st : RadioStation) (c : Client) : RadioStation × Option JsErr :=
  match writeSink c WriteItem.header with
  | (c1, false) => ({ st with clients := addSet st.clients c1 }, some JsErr.ioError)
  | (c1, true) =>
    match st.currentBuffer with
    | some b =>
      if st.currentPosition < st.fileSize then
        match writeSink c1 (WriteItem.chunk (b.drop st.currentPosition)) with
        | (c2, true) => ({ st with clients := addSet st.clients c2 }, none)
        | (c2, false) =>
          ({ st with clients := (addSet st.clients c2).filter (fun d => d.id != c.id) }, none)
      else ({ st with clients := addSet st.clients c1 }, none)
    | none => ({ st with clients := addSet st.clients c1 }, none)

/-- `removeClient` (lines 112-115): `this.clients.delete(client)`. -/
def removeClient (st : RadioStation) (c : Client) : RadioStation :=
  { st with clients := st.clients.filter (fun d => d.id != c.id) }

/-- `stop` (lines 153-165): clear the playing flag, cancel the interval,
end every sink and clear the registry. -/
def stop (st : RadioStation) : RadioStation :=
  { st with isPlaying := false, broadcastInterval := false, clients := [] }

/-- The object returned by `getCurrentTrackInfo` (lines 140-151).
`currentTrack` is `files[currentFileIndex]` (`undefined`, i.e. `none`,
when out of range); `progressPercent` is the numeric value of
`currentPosition / fileSize * 100`, with `none` standing for the
non-number (`NaN`/`Infinity`) produced when `fileSize` is 0. -/
structure TrackInfo where
  currentTrack : Option String
  position : Nat
  fileSize : Nat
  progressPercent : Option ℚ
  listeners : Nat
deriving DecidableEq

/-- `getCurrentTrackInfo` (lines 140-151): a read-only snapshot; no
branch of it can raise. -/
def getCurrentTrackInfo (st : RadioStation) : TrackInfo :=
  { currentTrack := st.files[st.currentFileIndex]?,
    position := st.currentPosition,
    fileSize := st.fileSize,
    progressPercent :=
      if st.fileSize = 0 then none
      else some ((st.currentPosition : ℚ) / (st.fileSize : ℚ) * 100),
    listeners := st.clients.length }

/-- Look a client up in the registry by its id (first match, as JS `Set`
iteration order is insertion order). -/
def clientById (st : RadioStation) (i : Nat) : Option Client :=
  st.clients.find? (fun c => c.id == i)

/-- Project one recorded write to its audio payload, dropping the header
block. -/
def payloadFn : WriteItem → Option (List Nat)
  | WriteItem.header => none
  | WriteItem.chunk l => some l

/-- The audio payload chunks a client has received, in order. -/
def payloadWrites (c : Client) : List (List Nat) :=
  c.written.filterMap payloadFn

/-- The client state after one successful chunk write of `ch`. -/
def pushChunk (c : Client) (ch : List Nat) : Client :=
  { c with writeCount := c.writeCount + 1, written := c.written ++ [WriteItem.chunk ch] }

/-- The slices a station at position `q` with chunk size `c` broadcasts
over the next `n` ticks while no rotation occurs. -/
def catchChunks (b : List Nat) (q c : Nat) : Nat → List (List Nat)
  | 0 => []
  | Nat.succ n => bufSlice b q (q + c) :: catchChunks b (q + c) c n

/-- The cursor invariant of the playback cursor: the byte offset never
passes the loaded file size and the track index stays inside the playlist
(both are `Nat`, so the lower bounds `0 ≤ _` of the source invariant hold
by type). -/
def CursorInv (st : RadioStation) : Prop :=
  st.currentPosition ≤ st.fileSize ∧ st.currentFileIndex < st.files.length

/-! Helper lemmas: which fields each operation leaves untouched. -/

theorem loadCurrentFile_clients (fs : Fs) (st : RadioStation) :
    (loadCurrentFile fs st).1.clients = st.clients := by
  unfold loadCurrentFile
  split
  · rfl
  · split <;> rfl

theorem loadCurrentFile_isPlaying (fs : Fs) (st : RadioStation) :
    (loadCurrentFile fs st).1.isPlaying = st.isPlaying := by
  unfold loadCurrentFile
  split
  · rfl
  · split <;> rfl

theorem loadCurrentFile_currentFileIndex (fs : Fs) (st : RadioStation) :
    (loadCurrentFile fs st).1.currentFileIndex = st.currentFileIndex := by
  unfold loadCurrentFile
  split
  · rfl
  · split <;> rfl

theorem loadCurrentFile_files (fs : Fs) (st : RadioStation) :
    (loadCurrentFile fs st).1.files = st.files := by
  unfold loadCurrentFile
  split
  · rfl
  · split <;> rfl

theorem loadCurrentFile_inv (fs : Fs) (st : RadioStation) (h : CursorInv st) :
    CursorInv (loadCurrentFile fs st).1 := by
  unfold loadCurrentFile
  split
  · exact h
  · split
    · exact h
    · exact h
    · exact ⟨Nat.zero_le _, h.2⟩

theorem nextTrack_currentFileIndex (fs : Fs) (st : RadioStation) :
    (nextTrack fs st).1.currentFileIndex = (st.currentFileIndex + 1) % st.files.length := by
  unfold nextTrack
  rw [loadCurrentFile_currentFileIndex]

theorem nextTrack_clients (fs : Fs) (st : RadioStation) :
    (nextTrack fs st).1.clients = st.clients := by
  unfold nextTrack
  rw [loadCurrentFile_clients]

theorem nextTrack_isPlaying (fs : Fs) (st : RadioStation) :
    (nextTrack fs st).1.isPlaying = st.isPlaying := by
  unfold nextTrack
  rw [loadCurrentFile_isPlaying]

theorem nextTrack_inv (fs : Fs) (st : RadioStation) (hne : st.files ≠ [])
    (h : CursorInv st) : CursorInv (nextTrack fs st).1 := by
  unfold nextTrack
  apply loadCurrentFile_inv
  refine ⟨h.1, ?_⟩
  exact Nat.mod_lt _ (List.length_pos.mpr hne)

theorem fanoutOne_id (ch : List Nat) (c c1 : Client)
    (h : fanoutOne ch c = some c1) : c1.id = c.id := by
  unfold fanoutOne writeSink at h
  by_cases hd : c.destroyed = true
  · simp [hd] at h
  · simp only [Bool.not_eq_true] at hd
    by_cases hk : c.okW c.writeCount = true
    · simp [hd, hk] at h
      subst h
      rfl
    · simp only [Bool.not_eq_true] at hk
      simp [hd, hk] at h

theorem fanoutOne_live (ch : List Nat) (c : Client)
    (hd : c.destroyed = false) (hk : c.okW c.writeCount = true) :
    fanoutOne ch c = some (pushChunk c ch) := by
  unfold fanoutOne writeSink pushChunk
  simp [hd, hk]

/-- Looking a live client up after fan-out finds exactly its state with
the tick's chunk appended. -/
theorem find_fanout (ch : List Nat) (i : Nat) :
    ∀ (cs : List Client) (cf : Client),
      cs.find? (fun d => d.id == i) = some cf →
      cf.destroyed = false → cf.okW cf.writeCount = true →
      (fanout ch cs).find? (fun d => d.id == i) = some (pushChunk cf ch) := by
  intro cs
  induction cs with
  | nil => intro cf h _ _; simp [List.find?] at h
  | cons x tl ih =>
    intro cf h hd hok
    rw [List.find?_cons] at h
    by_cases hxi : (x.id == i) = true
    · simp only [hxi] at h
      obtain rfl : x = cf := by simpa using h
      have hpush : ((pushChunk x ch).id == i) = true := hxi
      simp [fanout, List.filterMap_cons, fanoutOne_live ch x hd hok,
        List.find?_cons, hpush]
    · have hxi' : (x.id == i) = false := by simpa using hxi
      simp only [hxi'] at h
      cases hfo : fanoutOne ch x with
      | none =>
        simp only [fanout, List.filterMap_cons, hfo]
        exact ih cf h hd hok
      | some x1 =>
        have hx1 : (x1.id == i) = false := by
          rw [fanoutOne_id ch x x1 hfo]
          exact hxi'
        simp only [fanout, List.filterMap_cons, hfo, List.find?_cons, hx1]
        exact ih cf h hd hok

/-- Deleting a client with a different id from the registry does not
change which state a lookup finds. -/
theorem find?_filter_ne (i j : Nat) (hji : j ≠ i) :
    ∀ cs : List Client,
      (cs.filter (fun d => d.id != j)).find? (fun d => d.id == i)
        = cs.find? (fun d => d.id == i) := by
  intro cs
  induction cs with
  | nil => rfl
  | cons x tl ih =>
    by_cases hxi : (x.id == i) = true
    · have hxj : (x.id != j) = true := by
        have hx : x.id = i := by simpa using hxi
        subst hx
        simpa using fun hc => hji hc.symm
      simp [List.filter_cons, List.find?_cons, hxi, hxj]
    · have hxi' : (x.id == i) = false := by simpa using hxi
      by_cases hxj : (x.id != j) = true
      · simp only [List.filter_cons, hxj, if_true, List.find?_cons, hxi']
        exact ih
      · have hxj' : (x.id != j) = false := by simpa using hxj
        simp only [List.filter_cons, hxj', Bool.false_eq_true, if_false,
          List.find?_cons, hxi']
        exact ih

/-- With the guards passed, one tick replaces the registry with the
fan-out of the broadcast chunk (rotation afterwards never touches the
registry). -/
theorem tick_clients (fs : Fs) (st : RadioStation) (b : List Nat)
    (hplay : st.isPlaying = true) (hb : st.currentBuffer = some b) :
    (tick fs st).1.clients = fanout (broadcastChunk st b) st.clients := by
  unfold tick
  rw [hplay, hb]
  simp only [Bool.true_eq_false, if_false]
  by_cases hrot : st.fileSize ≤ min (st.currentPosition + st.chunkSize) st.fileSize
  · rw [if_pos hrot, nextTrack_clients]
    rfl
  · rw [if_neg hrot]
    rfl

theorem bufSlice_length (b : List Nat) (p : Nat) : bufSlice b p b.length = b.drop p := by
  simp [bufSlice]

theorem filterMap_payloadFn_map_chunk (l : List (List Nat)) :
    List.filterMap payloadFn (l.map WriteItem.chunk) = l := by
  induction l with
  | nil => rfl
  | cons x tl ih => simp [payloadFn, ih]

theorem filterMap_payloadFn_comp (l : List (List Nat)) :
    List.filterMap (payloadFn ∘ WriteItem.chunk) l = l := by
  induction l with
  | nil => rfl
  | cons x tl ih => simp [payloadFn, ih, Function.comp]

theorem catchChunks_mem (b : List Nat) :
    ∀ (n q k : Nat) (w : List Nat), w ∈ catchChunks b q k n →
      ∃ s, q ≤ s ∧ w = bufSlice b s (s + k) := by
  intro n
  induction n with
  | zero => intro q k w hw; simp [catchChunks] at hw
  | succ n ih =>
    intro q k w hw
    simp only [catchChunks, List.mem_cons] at hw
    rcases hw with rfl | hw
    · exact ⟨q, Nat.le_refl q, rfl⟩
    · obtain ⟨s, hs, rfl⟩ := ih (q + k) k w hw
      exact ⟨s, by omega, rfl⟩

/-- A tick that does not reach the end of the buffer: the slice
`[currentPosition, currentPosition + chunkSize)` is fanned out and the
position advances by `chunkSize`; no rotation happens and no exception
escapes. -/
theorem tick_no_rotation (fs : Fs) (st : RadioStation) (b : List Nat)
    (hplay : st.isPlaying = true) (hb : st.currentBuffer = some b)
    (hsize : st.fileSize = b.length)
    (hlt : st.currentPosition + st.chunkSize < b.length) :
    tick fs st =
      ({ st with
          clients := fanout (bufSlice b st.currentPosition
            (st.currentPosition + st.chunkSize)) st.clients,
          currentPosition := st.currentPosition + st.chunkSize }, none) := by
  have hmin : min (st.currentPosition + st.chunkSize) st.fileSize
      = st.currentPosition + st.chunkSize := by
    rw [hsize]
    exact Nat.min_eq_left (Nat.le_of_lt hlt)
  have hnrot : ¬ st.fileSize ≤ st.currentPosition + st.chunkSize := by omega
  unfold tick
  rw [hplay, hb]
  simp [hmin, hnrot]

/-- Over `n` rotation-free ticks, a live client whose writes all succeed
receives exactly the successive broadcast slices, appended in order to
what it already had. -/
theorem ticks_catchup (fs : Fs) (b : List Nat) :
    ∀ (n : Nat) (st : RadioStation) (i : Nat) (cf : Client),
      st.isPlaying = true → st.currentBuffer = some b → st.fileSize = b.length →
      st.currentPosition + n * st.chunkSize < b.length →
      clientById st i = some cf → cf.destroyed = false → (∀ m, cf.okW m = true) →
      ∃ cf2, clientById (ticksN fs n st).1 i = some cf2 ∧
        cf2.destroyed = false ∧ cf2.okW = cf.okW ∧
        cf2.written = cf.written ++
          (catchChunks b st.currentPosition st.chunkSize n).map WriteItem.chunk := by
  intro n
  induction n with
  | zero =>
    intro st i cf _ _ _ _ hfind hdes hok
    exact ⟨cf, hfind, hdes, rfl, by simp [catchChunks]⟩
  | succ n ih =>
    intro st i cf hplay hb hsize hlt hfind hdes hok
    have hmul : (n + 1) * st.chunkSize = n * st.chunkSize + st.chunkSize :=
      Nat.succ_mul n st.chunkSize
    have hstep : st.currentPosition + st.chunkSize + n * st.chunkSize < b.length := by
      omega
    have hchunk1 : st.currentPosition + st.chunkSize < b.length := by omega
    have htick := tick_no_rotation fs st b hplay hb hsize hchunk1
    have hunf : ticksN fs (Nat.succ n) st =
        ticksN fs n ({ st with
          clients := fanout (bufSlice b st.currentPosition
            (st.currentPosition + st.chunkSize)) st.clients,
          currentPosition := st.currentPosition + st.chunkSize }) := by
      show (match tick fs st with
            | (st1, none) => ticksN fs n st1
            | (st1, some e) => (st1, some e)) = _
      rw [htick]
    have hfind1 : clientById ({ st with
        clients := fanout (bufSlice b st.currentPosition
          (st.currentPosition + st.chunkSize)) st.clients,
        currentPosition := st.currentPosition + st.chunkSize }) i =
        some (pushChunk cf (bufSlice b st.currentPosition
          (st.currentPosition + st.chunkSize))) :=
      find_fanout _ i st.clients cf hfind hdes (hok _)
    obtain ⟨cf2, hcf2, hd2, hok2, hw2⟩ :=
      ih ({ st with
            clients := fanout (bufSlice b st.currentPosition
              (st.currentPosition + st.chunkSize)) st.clients,
            currentPosition := st.currentPosition + st.chunkSize })
        i (pushChunk cf (bufSlice b st.currentPosition
          (st.currentPosition + st.chunkSize)))
        hplay hb hsize hstep hfind1 hdes
        (by intro m; show cf.okW m = true; exact hok m)
    refine ⟨cf2, ?_, hd2, hok2, ?_⟩
    · rw [hunf]
      exact hcf2
    · rw [hw2]
      simp [pushChunk, catchChunks, List.append_assoc]

/-- The state of a client right after a fully successful attach at
position `p` of buffer `b`: the header write and the catch-up write of
the remaining bytes are both recorded. -/
def catchClient (c : Client) (b : List Nat) (p : Nat) : Client :=
  { c with
      writeCount := c.writeCount + 2,
      written := c.written ++ [WriteItem.header, WriteItem.chunk (b.drop p)] }

/-- A successful attach: headers then the catch-up write both succeed, so
the client lands in the registry with the header block and the remaining
bytes of the current track recorded, and no exception escapes. -/
theorem addClient_ok (st : RadioStation) (c : Client) (b : List Nat)
    (hb : st.currentBuffer = some b) (hlt : st.currentPosition < st.fileSize)
    (hok0 : c.okW c.writeCount = true) (hok1 : c.okW (c.writeCount + 1) = true)
    (hfresh : st.clients.any (fun d => d.id == c.id) = false) :
    addClient st c =
      ({ st with clients := st.clients ++ [catchClient c b st.currentPosition] },
        none) := by
  unfold addClient writeSink addSet catchClient
  rw [hb]
  simp [hok0, hok1, hlt, hfresh]

theorem tick_isPlaying (fs : Fs) (st : RadioStation) :
    (tick fs st).1.isPlaying = st.isPlaying := by
  unfold tick
  split
  · rfl
  · split
    · rfl
    · dsimp only
      split
      · rw [nextTrack_isPlaying]
      · rfl

/-- Attaching a client never touches the cursor, the loaded buffer, the
playing flag or the playlist, in every branch of `addClient`. -/
theorem addClient_cursorFields (st : RadioStation) (c : Client) :
    (addClient st c).1.currentFileIndex = st.currentFileIndex ∧
    (addClient st c).1.currentPosition = st.currentPosition ∧
    (addClient st c).1.currentBuffer = st.currentBuffer ∧
    (addClient st c).1.fileSize = st.fileSize ∧
    (addClient st c).1.isPlaying = st.isPlaying ∧
    (addClient st c).1.files = st.files := by
  unfold addClient
  split
  · exact ⟨rfl, rfl, rfl, rfl, rfl, rfl⟩
  · split
    · split
      · split
        · exact ⟨rfl, rfl, rfl, rfl, rfl, rfl⟩
        · exact ⟨rfl, rfl, rfl, rfl, rfl, rfl⟩
      · exact ⟨rfl, rfl, rfl, rfl, rfl, rfl⟩
    · exact ⟨rfl, rfl, rfl, rfl, rfl, rfl⟩

/-! Concrete fixtures used by the scenario claims. -/

/-- A file system in which every path is absent. -/
def fsNone : Fs := fun _ => FsEntry.missing

/-- A file system in which every path exists but raises on read. -/
def fsUnreadable : Fs := fun _ => FsEntry.unreadable

/-- Track A of the §8 scenario: 500 bytes. -/
def trackA : List Nat := List.replicate 500 0

/-- Track B of the §8 scenario: 300 bytes. -/
def trackB : List Nat := List.replicate 300 1

/-- The file system serving the two scenario tracks. -/
def fsAB : Fs := fun f =>
  if f = "trackA.mp3" then FsEntry.file trackA
  else if f = "trackB.mp3" then FsEntry.file trackB
  else FsEntry.missing

/-- The §8 scenario station: started on the two-track playlist, with the
scenario's slice size of 100 bytes per tick in place of the constructor
default. -/
def stC4 : RadioStation :=
  { (start fsAB (mkStation "scenario" ["trackA.mp3", "trackB.mp3"])).1 with
      chunkSize := 100 }

/-- A file system where the first playlist entry is absent and the second
is readable. -/
def fsC3 : Fs := fun f =>
  if f = "second.mp3" then FsEntry.file [1, 2, 3] else FsEntry.missing

/-- The station obtained by starting on a playlist whose first track is
missing: `isPlaying` is already `true` but no buffer ever loaded. -/
def stStuck : RadioStation :=
  (start fsC3 (mkStation "stuck" ["first.mp3", "second.mp3"])).1

/-! The claims. -/

/-- C1: for every station with a non-empty playlist and a loaded buffer,
the cursor invariant `0 ≤ currentPosition ≤ fileSize` and
`0 ≤ currentFileIndex < playlist length` (lower bounds by the `Nat`
type) is preserved by a broadcast tick, by a rotation
(`nextTrack`/`loadCurrentFile`), and by a client attach or detach. -/
theorem c1_cursor_invariant (fs : Fs) (st : RadioStation) (b : List Nat)
    (hne : st.files ≠ []) (_hb : st.currentBuffer = some b)
    (hinv : CursorInv st) :
    CursorInv (tick fs st).1 ∧ CursorInv (nextTrack fs st).1 ∧
    CursorInv (loadCurrentFile fs st).1 ∧
    (∀ c, CursorInv (addClient st c).1) ∧
    (∀ c, CursorInv (removeClient st c)) := by
  refine ⟨?_, nextTrack_inv fs st hne hinv, loadCurrentFile_inv fs st hinv, ?_, ?_⟩
  · unfold tick
    split
    · exact hinv
    · split
      · exact hinv
      · dsimp only
        split
        · refine nextTrack_inv fs _ ?_ ?_
          · exact hne
          · exact ⟨Nat.min_le_right _ _, hinv.2⟩
        · exact ⟨Nat.min_le_right _ _, hinv.2⟩
  · intro c
    obtain ⟨h1, h2, _, h4, _, h6⟩ := addClient_cursorFields st c
    exact ⟨by rw [h2, h4]; exact hinv.1, by rw [h1, h6]; exact hinv.2⟩
  · intro c
    exact hinv

/-- C1 witness: the invariant theorem applied to a concrete playing
station. -/
theorem c1_witness :
    CursorInv (tick fsNone
      { mkStation "w1" ["a.mp3"] with
          isPlaying := true, currentBuffer := some [3, 4], fileSize := 2,
          currentPosition := 1, broadcastInterval := true }).1 :=
  (c1_cursor_invariant fsNone _ [3, 4] (by simp [mkStation]) rfl
    ⟨by decide, by decide⟩).1

/-- C2 counterexample: starting a station whose single playlist entry is
missing sets `isPlaying = true` even though no track has loaded,
refuting "isPlaying stays false while no track has loaded". -/
theorem c2_counterexample :
    (start fsNone (mkStation "solo" ["gone.mp3"])).1.isPlaying = true ∧
    (start fsNone (mkStation "solo" ["gone.mp3"])).1.currentBuffer = none :=
  ⟨rfl, rfl⟩

/-- C2 (amended): after `start()`, a station with an empty playlist keeps
`isPlaying = false`; a station with a non-empty playlist has
`isPlaying = true` immediately, whether or not the first track loaded
(the flag is set before the load attempt); once `true` it is preserved
by ticks, rotations and client operations, until `stop()` clears it. -/
theorem c2_isPlaying_lifecycle (fs : Fs) :
    (∀ name, (start fs (mkStation name [])).1.isPlaying = false) ∧
    (∀ st : RadioStation, st.files ≠ [] → (start fs st).1.isPlaying = true) ∧
    (∀ st : RadioStation, st.isPlaying = true →
      (tick fs st).1.isPlaying = true ∧ (nextTrack fs st).1.isPlaying = true ∧
      (∀ c, (addClient st c).1.isPlaying = true ∧
        (removeClient st c).isPlaying = true)) ∧
    (∀ st : RadioStation, (stop st).isPlaying = false) := by
  refine ⟨fun name => rfl, ?_, ?_, fun st => rfl⟩
  · intro st hne
    unfold start
    rw [if_neg (by simpa using hne)]
    split
    · next st2 heq =>
      have h := loadCurrentFile_isPlaying fs { st with isPlaying := true }
      rw [heq] at h
      exact h
    · next st2 e heq =>
      have h := loadCurrentFile_isPlaying fs { st with isPlaying := true }
      rw [heq] at h
      exact h
  · intro st hp
    refine ⟨?_, ?_, ?_⟩
    · rw [tick_isPlaying]; exact hp
    · rw [nextTrack_isPlaying]; exact hp
    · intro c
      exact ⟨by rw [(addClient_cursorFields st c).2.2.2.2.1]; exact hp, hp⟩

/-- C2 witness: the amended lifecycle at concrete stations. -/
theorem c2_witness :
    (start fsNone (mkStation "w2" [])).1.isPlaying = false ∧
    (start fsNone (mkStation "w2b" ["x.mp3"])).1.isPlaying = true ∧
    (tick fsNone (start fsNone (mkStation "w2b" ["x.mp3"])).1).1.isPlaying = true := by
  refine ⟨(c2_isPlaying_lifecycle fsNone).1 "w2", ?_, ?_⟩
  · exact (c2_isPlaying_lifecycle fsNone).2.1 (mkStation "w2b" ["x.mp3"]) (by simp [mkStation])
  · exact ((c2_isPlaying_lifecycle fsNone).2.2.1
      (start fsNone (mkStation "w2b" ["x.mp3"])).1 rfl).1

/-- C3 counterexample: a started station whose first track never loaded
(`currentBuffer = none`) ticks as an exact no-op, so `currentFileIndex`
stays stuck at the unloadable track 0 forever, even though track 1 is
loadable — refuting "the station never ticks forever with
currentFileIndex stuck at one unloadable track". -/
theorem c3_counterexample :
    tick fsC3 stStuck = (stStuck, none) ∧
    stStuck.isPlaying = true ∧ stStuck.currentBuffer = none ∧
    stStuck.currentFileIndex = 0 ∧
    (loadCurrentFile fsC3 stStuck).1.currentBuffer = none ∧
    (loadCurrentFile fsC3 { stStuck with currentFileIndex := 1 }).1.currentBuffer
      = some [1, 2, 3] :=
  ⟨rfl, rfl, rfl, rfl, rfl, rfl⟩

/-- C3 (amended): while a buffer is loaded, every tick that triggers a
rotation attempt advances `currentFileIndex` by exactly 1 modulo the
playlist length, whether or not the new load succeeds — so a station
with a loaded buffer never sticks at one index; only a station that has
never loaded any buffer (initial load failure) ticks without advancing. -/
theorem c3_rotation_advances (fs : Fs) (st : RadioStation) (b : List Nat)
    (hplay : st.isPlaying = true) (hb : st.currentBuffer = some b)
    (hrot : st.fileSize ≤ st.currentPosition + st.chunkSize) :
    (tick fs st).1.currentFileIndex = (st.currentFileIndex + 1) % st.files.length := by
  have hend : min (st.currentPosition + st.chunkSize) st.fileSize = st.fileSize :=
    Nat.min_eq_right hrot
  unfold tick
  rw [hplay, hb]
  simp [hend, nextTrack_currentFileIndex]

/-- C3 witness: the amended rotation property at a concrete exhausted
station whose next track is missing. -/
theorem c3_witness :
    (tick fsNone
      { mkStation "w3" ["a.mp3", "b.mp3"] with
          isPlaying := true, currentBuffer := some [5], fileSize := 1,
          currentPosition := 1, broadcastInterval := true }).1.currentFileIndex
      = (0 + 1) % 2 :=
  c3_rotation_advances fsNone _ [5] rfl rfl (by decide)

/-- C4: on the playlist `[A(500 bytes), B(300 bytes)]` with slice size
100 and all loads succeeding, starting at track A offset 0: after
exactly 5 ticks the cursor is at track B offset 0; two ticks later the
offset is 200 and the eighth tick broadcasts `B[200, 300)`, exhausting B
at offset 300 and rotating back to track A (offset 0). -/
theorem c4_two_track_scenario :
    ((ticksN fsAB 5 stC4).1.currentFileIndex = 1 ∧
      (ticksN fsAB 5 stC4).1.currentPosition = 0 ∧
      (ticksN fsAB 5 stC4).1.currentBuffer = some trackB) ∧
    ((ticksN fsAB 7 stC4).1.currentFileIndex = 1 ∧
      (ticksN fsAB 7 stC4).1.currentPosition = 200 ∧
      broadcastChunk (ticksN fsAB 7 stC4).1 trackB = bufSlice trackB 200 300) ∧
    ((ticksN fsAB 8 stC4).1.currentFileIndex = 0 ∧
      (ticksN fsAB 8 stC4).1.currentPosition = 0 ∧
      (ticksN fsAB 8 stC4).1.currentBuffer = some trackA) ∧
    (ticksN fsAB 8 stC4).2 = none := by
  set_option maxRecDepth 100000 in
  refine ⟨⟨?_, ?_, ?_⟩, ⟨?_, ?_, ?_⟩, ⟨?_, ?_, ?_⟩, ?_⟩ <;> rfl

/-- C5: a client attached while a track is playing at position `p`
receives as payload exactly the remaining bytes `[p, fileSize)` of the
current track (the catch-up write), followed by the slices of the
subsequent ticks in order, and every payload chunk it receives is a
slice of the track starting at or after `p`. -/
theorem c5_midtrack_attach (fs : Fs) (st : RadioStation) (b : List Nat)
    (c : Client) (n : Nat)
    (hplay : st.isPlaying = true) (hb : st.currentBuffer = some b)
    (hsize : st.fileSize = b.length) (hpos : st.currentPosition < b.length)
    (hdes : c.destroyed = false) (hok : ∀ m, c.okW m = true)
    (hvirgin : c.written = [])
    (hfresh : ∀ d ∈ st.clients, d.id ≠ c.id)
    (hn : st.currentPosition + n * st.chunkSize < b.length) :
    (addClient st c).2 = none ∧
    ∃ cf, clientById (ticksN fs n (addClient st c).1).1 c.id = some cf ∧
      payloadWrites cf =
        b.drop st.currentPosition ::
          catchChunks b st.currentPosition st.chunkSize n ∧
      ∀ w ∈ payloadWrites cf, ∃ s e, st.currentPosition ≤ s ∧ w = bufSlice b s e := by
  have hfreshb : st.clients.any (fun d => d.id == c.id) = false := by
    rw [List.any_eq_false]
    intro d hd
    simpa using hfresh d hd
  have hposf : st.currentPosition < st.fileSize := by rw [hsize]; exact hpos
  have hadd := addClient_ok st c b hb hposf (hok _) (hok _) hfreshb
  have hsnd : (addClient st c).2 = none := by rw [hadd]
  have hfst : (addClient st c).1 =
      { st with clients := st.clients ++ [catchClient c b st.currentPosition] } := by
    rw [hadd]
  refine ⟨hsnd, ?_⟩
  rw [hfst]
  have hfind1 : clientById
      ({ st with clients := st.clients ++ [catchClient c b st.currentPosition] }) c.id
      = some (catchClient c b st.currentPosition) := by
    show (st.clients ++ [catchClient c b st.currentPosition]).find?
        (fun d => d.id == c.id) = _
    rw [List.find?_append, List.find?_eq_none.mpr (fun d hd => by simpa using hfresh d hd)]
    simp [List.find?, catchClient]
  obtain ⟨cf, hcf, _, _, hw⟩ :=
    ticks_catchup fs b n
      ({ st with clients := st.clients ++ [catchClient c b st.currentPosition] })
      c.id (catchClient c b st.currentPosition)
      hplay hb hsize hn hfind1 hdes (fun m => hok m)
  have hpay : payloadWrites cf =
      b.drop st.currentPosition ::
        catchChunks b st.currentPosition st.chunkSize n := by
    unfold payloadWrites
    rw [hw]
    simp [catchClient, hvirgin, payloadFn, List.filterMap_append,
      filterMap_payloadFn_map_chunk, filterMap_payloadFn_comp]
  refine ⟨cf, hcf, hpay, ?_⟩
  intro w hwmem
  rw [hpay] at hwmem
  rcases List.mem_cons.mp hwmem with rfl | hw2
  · exact ⟨st.currentPosition, b.length, Nat.le_refl _,
      (bufSlice_length b st.currentPosition).symm⟩
  · obtain ⟨s, hs, rfl⟩ := catchChunks_mem b n st.currentPosition st.chunkSize w hw2
    exact ⟨s, s + st.chunkSize, hs, rfl⟩

/-- A fresh never-failing client sink used in witnesses. -/
def cliA : Client :=
  { id := 1, destroyed := false, okW := fun _ => true, writeCount := 0, written := [] }

/-- A second fresh never-failing client sink used in witnesses. -/
def cliB : Client :=
  { id := 2, destroyed := false, okW := fun _ => true, writeCount := 0, written := [] }

/-- A fresh client for the C5 witness. -/
def cliW5 : Client :=
  { id := 7, destroyed := false, okW := fun _ => true, writeCount := 0, written := [] }

/-- A playing station mid-track for the C5 witness. -/
def stW5 : RadioStation :=
  { mkStation "w5" ["a.mp3"] with
      isPlaying := true, currentBuffer := some [0, 1, 2, 3, 4, 5], fileSize := 6,
      currentPosition := 1, chunkSize := 2, broadcastInterval := true }

/-- C5 witness: the attach theorem applied at a concrete mid-track
station. -/
theorem c5_witness : (addClient stW5 cliW5).2 = none :=
  (c5_midtrack_attach fsNone stW5 [0, 1, 2, 3, 4, 5] cliW5 2 rfl rfl rfl
    (by decide) rfl (fun _ => rfl) rfl (by simp [stW5, mkStation]) (by decide)).1

/-- The mid-operation station for C6: a started one-track station whose
file system will now raise on read. -/
def stC6 : RadioStation :=
  { mkStation "s6" ["broken.mp3"] with
      isPlaying := true, currentBuffer := some [7], fileSize := 1,
      currentPosition := 1, broadcastInterval := true }

/-- C6: a load attempt on an existing-but-unreadable file leaves
`currentBuffer`, `fileSize` and `currentPosition` unchanged, but the
`readFileSync` exception is not caught inside `loadCurrentFile`: it
escapes the load, escapes the rotation inside the tick (becoming an
unhandled promise rejection), and escapes `start` — contradicting the
claim that no load failure is process-fatal and the loop keeps
ticking. -/
theorem c6_unreadable_load_escapes :
    loadCurrentFile fsUnreadable stC6 = (stC6, some JsErr.ioError) ∧
    (tick fsUnreadable stC6).2 = some JsErr.ioError ∧
    (start fsUnreadable (mkStation "s6" ["broken.mp3"])).2 = some JsErr.ioError :=
  ⟨rfl, rfl, rfl⟩

/-- C7: a station created on an empty playlist is not playing after
`start()`, and `getCurrentTrackInfo` returns (never raises) a snapshot
with no track (`files[0]` is `undefined`), no numeric progress and a
listener count of 0. -/
theorem c7_empty_playlist_status (fs : Fs) (name : String) :
    (start fs (mkStation name [])).1.isPlaying = false ∧
    getCurrentTrackInfo (start fs (mkStation name [])).1 =
      { currentTrack := none, position := 0, fileSize := 0,
        progressPercent := none, listeners := 0 } :=
  ⟨rfl, rfl⟩

/-- C8: within one tick every registered client that is live at fan-out
(not destroyed, write succeeds) receives the same byte slice
`[offset, min(offset + chunkSize, fileSize))`, and deleting any other
client from the registry before the tick does not change the slice a
live client receives. -/
theorem c8_uniform_slice (fs : Fs) (st : RadioStation) (b : List Nat)
    (hplay : st.isPlaying = true) (hb : st.currentBuffer = some b) :
    (∀ (i : Nat) (cf : Client), clientById st i = some cf →
      cf.destroyed = false → cf.okW cf.writeCount = true →
      clientById (tick fs st).1 i = some (pushChunk cf (broadcastChunk st b))) ∧
    (∀ (j i : Nat) (cf : Client), j ≠ i → clientById st i = some cf →
      cf.destroyed = false → cf.okW cf.writeCount = true →
      clientById (tick fs
          { st with clients := st.clients.filter (fun d => d.id != j) }).1 i
        = some (pushChunk cf (broadcastChunk st b))) := by
  constructor
  · intro i cf hfind hdes hok
    show (tick fs st).1.clients.find? (fun d => d.id == i) = _
    rw [tick_clients fs st b hplay hb]
    exact find_fanout _ i st.clients cf hfind hdes hok
  · intro j i cf hji hfind hdes hok
    show (tick fs
        { st with clients := st.clients.filter (fun d => d.id != j) }).1.clients.find?
        (fun d => d.id == i) = _
    rw [tick_clients fs
      { st with clients := st.clients.filter (fun d => d.id != j) } b hplay hb]
    refine find_fanout _ i _ cf ?_ hdes hok
    show (st.clients.filter (fun d => d.id != j)).find? (fun d => d.id == i) = some cf
    rw [find?_filter_ne i j hji]
    exact hfind

/-- A playing two-client station for the C8 witness. -/
def stW8 : RadioStation :=
  { mkStation "w8" ["a.mp3"] with
      isPlaying := true, currentBuffer := some [3, 4, 5], fileSize := 3,
      currentPosition := 1, chunkSize := 1, clients := [cliA, cliB],
      broadcastInterval := true }

/-- C8 witness: the fan-out theorem at a concrete station with two live
clients. -/
theorem c8_witness :
    clientById (tick fsNone stW8).1 2
      = some (pushChunk cliB (broadcastChunk stW8 [3, 4, 5])) :=
  (c8_uniform_slice fsNone stW8 [3, 4, 5] rfl rfl).1 2 cliB rfl rfl rfl

/-- C9: `removeClient` is idempotent — removing the same client twice
yields the same registry as removing it once — and removing a client
that is not (or no longer) in the registry is an exact no-op; the
operation is total, so it can never raise. -/
theorem c9_removeClient_idempotent :
    (∀ (st : RadioStation) (c : Client),
      removeClient (removeClient st c) c = removeClient st c) ∧
    (∀ (st : RadioStation) (c : Client),
      (∀ d ∈ st.clients, d.id ≠ c.id) → removeClient st c = st) := by
  constructor
  · intro st c
    show ({ st with clients :=
        (st.clients.filter (fun d => d.id != c.id)).filter (fun d => d.id != c.id) })
      = { st with clients := st.clients.filter (fun d => d.id != c.id) }
    rw [List.filter_filter]
    exact congrArg (fun l => { st with clients := l })
      (List.filter_congr (fun d _ => Bool.and_self _))
  · intro st c h
    have hcl : st.clients.filter (fun d => d.id != c.id) = st.clients :=
      List.filter_eq_self.mpr (fun d hd => by simpa using h d hd)
    show { st with clients := st.clients.filter (fun d => d.id != c.id) } = st
    rw [hcl]

/-- A client that is not registered in the C9 witness station. -/
def cliW9 : Client :=
  { id := 3, destroyed := false, okW := fun _ => true, writeCount := 0, written := [] }

/-- A station holding one client (id 1) for the C9 witness. -/
def stW9 : RadioStation := { mkStation "w9" ["a.mp3"] with clients := [cliA] }

/-- C9 witness: removing an absent client is a no-op at a concrete
station. -/
theorem c9_witness : removeClient stW9 cliW9 = stW9 :=
  c9_removeClient_idempotent.2 stW9 cliW9 (by
    intro d hd
    have hda : d = cliA := by simpa [stW9, mkStation] using hd
    subst hda
    decide)

/-- C10: if the catch-up write to a newly attached (fresh) client
throws, `addClient` deletes the client again, leaving the registry
exactly as before the call with no escaping exception; and in every
branch `addClient` leaves `currentFileIndex`, `currentPosition`,
`currentBuffer` and `fileSize` unchanged. -/
theorem c10_addClient_atomic :
    (∀ (st : RadioStation) (c : Client) (b : List Nat),
      st.currentBuffer = some b → st.currentPosition < st.fileSize →
      c.okW c.writeCount = true → c.okW (c.writeCount + 1) = false →
      (∀ d ∈ st.clients, d.id ≠ c.id) →
      (addClient st c).1.clients = st.clients ∧ (addClient st c).2 = none) ∧
    (∀ (st : RadioStation) (c : Client),
      (addClient st c).1.currentFileIndex = st.currentFileIndex ∧
      (addClient st c).1.currentPosition = st.currentPosition ∧
      (addClient st c).1.currentBuffer = st.currentBuffer ∧
      (addClient st c).1.fileSize = st.fileSize) := by
  constructor
  · intro st c b hb hlt hok0 hok1 hfresh
    have hfreshb : st.clients.any (fun d => d.id == c.id) = false := by
      rw [List.any_eq_false]
      intro d hd
      simpa using hfresh d hd
    have hkeep : st.clients.filter (fun d => d.id != c.id) = st.clients :=
      List.filter_eq_self.mpr (fun d hd => by simpa using hfresh d hd)
    unfold addClient writeSink addSet
    rw [hb]
    simp [hok0, hok1, hlt, hfreshb, List.filter_append, hkeep]
  · intro st c
    obtain ⟨h1, h2, h3, h4, _, _⟩ := addClient_cursorFields st c
    exact ⟨h1, h2, h3, h4⟩

/-- A client whose header write succeeds and whose catch-up write
throws, for the C10 witness. -/
def cliW10 : Client :=
  { id := 5, destroyed := false, okW := fun m => m == 0, writeCount := 0, written := [] }

/-- A playing mid-track station for the C10 witness. -/
def stW10 : RadioStation :=
  { mkStation "w10" ["a.mp3"] with
      isPlaying := true, currentBuffer := some [9, 9], fileSize := 2,
      currentPosition := 0, broadcastInterval := true }

/-- C10 witness: the failed catch-up write restores the registry at a
concrete station. -/
theorem c10_witness :
    (addClient stW10 cliW10).1.clients = stW10.clients ∧
    (addClient stW10 cliW10).2 = none :=
  c10_addClient_atomic.1 stW10 cliW10 [9, 9] rfl (by decide) rfl rfl
    (by simp [stW10, mkStation])

end RadioMax
